import Mathlib

/-!
# Ring viewer (`viewer.js`): shallow embedding and verified properties

The script configures a three.js scene.  Its own logic is

* the normalisation of the loaded model (bounding box, centring, scaling),
* the material-enhancement traversal,
* the rotation tween configuration,
* the frame loop `animate`,
* the registration of the `.customize` click listener.

Numbers are modelled over exact rationals (`ℚ`); JavaScript values that may be
missing (`undefined`/`null`) are modelled with `Option`.
-/

namespace Viewer

/-! ## Normalisation of the loaded model (viewer.js, lines 73-83) -/

/-- Three.js `Vector3` over exact rationals. -/
structure Vector3 where
  x : ℚ
  y : ℚ
  z : ℚ
  deriving DecidableEq

/-- `a.sub(b)`: component-wise subtraction. -/
def Vector3.sub (a b : Vector3) : Vector3 :=
  ⟨a.x - b.x, a.y - b.y, a.z - b.z⟩

/-- `v.setScalar(s)`: every component becomes `s`. -/
def Vector3.setScalar (_v : Vector3) (s : ℚ) : Vector3 :=
  ⟨s, s, s⟩

/-- Three.js `Box3`: an axis-aligned box given by two corners. -/
structure Box3 where
  min : Vector3
  max : Vector3
  deriving DecidableEq

/-- `box.isEmpty()`: some maximum lies below the matching minimum. -/
def Box3.isEmpty (b : Box3) : Bool :=
  decide (b.max.x < b.min.x) || decide (b.max.y < b.min.y) || decide (b.max.z < b.min.z)

/-- `box.getCenter(target)`: the zero vector for an empty box, otherwise
`(min + max) * 0.5`. -/
def Box3.getCenter (b : Box3) : Vector3 :=
  if b.isEmpty then ⟨0, 0, 0⟩
  else ⟨(b.min.x + b.max.x) * (1 / 2), (b.min.y + b.max.y) * (1 / 2),
        (b.min.z + b.max.z) * (1 / 2)⟩

/-- `box.getSize(target)`: the zero vector for an empty box, otherwise
`max - min`. -/
def Box3.getSize (b : Box3) : Vector3 :=
  if b.isEmpty then ⟨0, 0, 0⟩
  else ⟨b.max.x - b.min.x, b.max.y - b.min.y, b.max.z - b.min.z⟩

/-- The loaded model `gltf.scene` as far as normalisation sees it: the root
transform (`position`, per-axis `scale`, no rotation) and the axis-aligned
extent of its content in the root's own frame (`localExtent`). -/
structure Model where
  position : Vector3
  scale : Vector3
  localExtent : Box3
  deriving DecidableEq

/-- `new THREE.Box3().setFromObject(model)`: the world-space box of the model.
Per axis the world extent is `position + scale * localExtent`; the two ends
are ordered with `min`/`max` (a negative scale swaps them).  A model without
content keeps an empty box. -/
def setFromObject (m : Model) : Box3 :=
  if m.localExtent.isEmpty then m.localExtent
  else
    let ax := m.position.x + m.scale.x * m.localExtent.min.x
    let bx := m.position.x + m.scale.x * m.localExtent.max.x
    let ay := m.position.y + m.scale.y * m.localExtent.min.y
    let byy := m.position.y + m.scale.y * m.localExtent.max.y
    let az := m.position.z + m.scale.z * m.localExtent.min.z
    let bz := m.position.z + m.scale.z * m.localExtent.max.z
    ⟨⟨Min.min ax bx, Min.min ay byy, Min.min az bz⟩,
     ⟨Max.max ax bx, Max.max ay byy, Max.max az bz⟩⟩

/-- `Math.max(a, b, c)`. -/
def mathMax3 (a b c : ℚ) : ℚ := Max.max (Max.max a b) c

/-- The longest side of a box: `Math.max(size.x, size.y, size.z)`. -/
def Box3.longestSide (b : Box3) : ℚ :=
  mathMax3 b.getSize.x b.getSize.y b.getSize.z

/-- The normalisation step of the load callback (lines 73-83):
```
const box = new THREE.Box3().setFromObject(model);
box.getCenter(center);  model.position.sub(center);
box.getSize(size);
const scale = 1.5 / Math.max(size.x, size.y, size.z);
model.scale.setScalar(scale);
```
`box` is computed once, before either change.  (A zero divisor gives
`Infinity` in JavaScript and `0` in `ℚ`; the theorem about the scaled model
assumes a positive longest side, and the box of a model without content is
empty whatever the scale.) -/
def normalize (model : Model) : Model :=
  let box := setFromObject model
  let center := box.getCenter
  let model1 : Model := { model with position := model.position.sub center }
  let size := box.getSize
  let scale : ℚ := (3 / 2) / mathMax3 size.x size.y size.z
  { model1 with scale := model1.scale.setScalar scale }

/-- The model used as failing input for the centring property: identity root
transform, content spanning `[1,3] x [0,1] x [0,1]`. -/
def offCentreModel : Model :=
  { position := ⟨0, 0, 0⟩, scale := ⟨1, 1, 1⟩,
    localExtent := ⟨⟨1, 0, 0⟩, ⟨3, 1, 1⟩⟩ }

/-- A loaded scene without geometry (only empty nodes, cameras or lights):
identity root transform and an empty content box.  Three.js marks an empty box
by `min = +Infinity`, `max = -Infinity`; any box with `max < min` is read the
same way by `isEmpty`, `getCenter` and `getSize`. -/
def emptyModel : Model :=
  { position := ⟨0, 0, 0⟩, scale := ⟨1, 1, 1⟩,
    localExtent := ⟨⟨1, 1, 1⟩, ⟨-1, -1, -1⟩⟩ }

/-! ## Material enhancement (viewer.js, lines 94-119) -/

/-- The part of a three.js material the script reads or writes.  The type
flags are `true` when the JavaScript property is truthy; `color` is a
`THREE.Color` object when present (its hex value is kept; an object is truthy
whatever its value); numeric parameters may be missing.  `map` and `opacity`
stand for the properties the script never mentions. -/
structure Material where
  isMeshPhysicalMaterial : Bool
  isMeshStandardMaterial : Bool
  color : Option Nat
  metalness : Option ℚ
  roughness : Option ℚ
  envMapIntensity : Option ℚ
  clearcoat : Option ℚ
  clearcoatRoughness : Option ℚ
  map : Option Nat
  opacity : ℚ
  deriving DecidableEq

/-- JavaScript `v || 0` on a number that may be missing: a missing value and
the falsy number `0` both give `0`. -/
def orZero : Option ℚ → ℚ
  | none => 0
  | some v => if v = 0 then 0 else v

/-- The test of both `if`s:
`material.isMeshPhysicalMaterial || material.isMeshStandardMaterial`. -/
def isPBR (m : Material) : Bool :=
  m.isMeshPhysicalMaterial || m.isMeshStandardMaterial

/-- Body of the first `if` (lines 99-101): the three assignments, in order. -/
def clampPBR (m : Material) : Material :=
  let m1 := { m with metalness := some (Max.max (orZero m.metalness) (4 / 5)) }
  let m2 := { m1 with roughness := some (Min.min (orZero m1.roughness) (3 / 10)) }
  { m2 with envMapIntensity := some (Max.max (orZero m2.envMapIntensity) (6 / 5)) }

/-- The default gold `0xD4AF37`. -/
def defaultGold : Nat := 0xD4AF37

/-- `new THREE.MeshPhysicalMaterial({ color, metalness: 0.9, roughness: 0.2,
clearcoat: 0.3, clearcoatRoughness: 0.1, envMapIntensity: 1.5 })`: a fresh
physical material (which is also a standard material); properties that are not
passed keep the constructor defaults (no texture, opacity 1). -/
def newMeshPhysicalMaterial (color : Nat) : Material :=
  { isMeshPhysicalMaterial := true
    isMeshStandardMaterial := true
    color := some color
    metalness := some (9 / 10)
    roughness := some (1 / 5)
    envMapIntensity := some (3 / 2)
    clearcoat := some (3 / 10)
    clearcoatRoughness := some (1 / 10)
    map := none
    opacity := 1 }

/-- Body of the second `if` (lines 106-114):
`originalColor = material.color || new THREE.Color(0xD4AF37)` and the
replacement of the material. -/
def replaceMaterial (m : Material) : Material :=
  let originalColor := match m.color with
    | some c => c
    | none => defaultGold
  newMeshPhysicalMaterial originalColor

/-- The two consecutive `if`s applied to `child.material` (lines 98-115).  The
second test reads the material as the first `if` left it. -/
def enhanceMaterial (m : Material) : Material :=
  let m1 := if isPBR m then clampPBR m else m
  if !(isPBR m1) then replaceMaterial m1 else m1

/-- What the traversal callback sees of a scene-graph node. -/
structure Child where
  name : String
  isMesh : Bool
  material : Option Material
  deriving DecidableEq

/-- The traversal callback (lines 95-119): `if (child.isMesh && child.material)`
then enhance the material, otherwise leave the node alone. -/
def enhanceChild (child : Child) : Child :=
  match child.isMesh, child.material with
  | true, some m => { child with material := some (enhanceMaterial m) }
  | _, _ => child

/-- A scene-graph node with its children. -/
inductive Object3D where
  | node (self : Child) (children : List Object3D)

mutual
/-- `object.traverse(callback)`: the callback runs on the node itself and then
on every descendant. -/
def Object3D.traverse (callback : Child → Child) : Object3D → Object3D
  | .node self children => .node (callback self) (traverseChildren callback children)
/-- The loop of `traverse` over the children array. -/
def traverseChildren (callback : Child → Child) : List Object3D → List Object3D
  | [] => []
  | c :: cs => c.traverse callback :: traverseChildren callback cs
end

mutual
/-- Every node of a scene graph, in traversal order. -/
def Object3D.nodes : Object3D → List Child
  | .node self children => self :: nodesOfChildren children
/-- The nodes below a children array, in traversal order. -/
def nodesOfChildren : List Object3D → List Child
  | [] => []
  | c :: cs => c.nodes ++ nodesOfChildren cs
end

/-- The second traversal of the load callback: enhance every material. -/
def enhanceMaterials (model : Object3D) : Object3D :=
  model.traverse enhanceChild

/-- A standard material with metalness 0.5, roughness 0.5, envMapIntensity 1
and a texture. -/
def standardHalf : Material :=
  { isMeshPhysicalMaterial := false, isMeshStandardMaterial := true,
    color := some 0xFFFFFF, metalness := some (1 / 2), roughness := some (1 / 2),
    envMapIntensity := some 1, clearcoat := none, clearcoatRoughness := none,
    map := some 7, opacity := 1 }

/-- A basic (non-PBR) material without colour, with a texture and opacity 0.5. -/
def basicNoColour : Material :=
  { isMeshPhysicalMaterial := false, isMeshStandardMaterial := false,
    color := none, metalness := none, roughness := none,
    envMapIntensity := none, clearcoat := none, clearcoatRoughness := none,
    map := some 3, opacity := 1 / 2 }

/-- Two meshes and a group, used to instantiate the traversal theorems: a
standard material with metalness 0.5, a basic (non-PBR) material without
colour, and a mesh without material. -/
def sampleScene : Object3D :=
  .node ⟨"Scene", false, none⟩
    [ .node ⟨"band", true,
        some standardHalf⟩ [],
      .node ⟨"stone", true,
        some basicNoColour⟩
        [ .node ⟨"bare", true, none⟩ [] ] ]

/-! ## Rotation tween (viewer.js, lines 123-129) -/

/-- The `vars` object handed to `gsap.to`. -/
structure TweenVars (α : Type) where
  y : α
  duration : ℚ
  «repeat» : Int
  ease : String

/-- The call `gsap.to(model.rotation, { y: model.rotation.y + Math.PI * 2,
duration: 20, repeat: -1, ease: "none" })`, as a function of `Math.PI` and of
`model.rotation.y` when the call is made. -/
def rotationTween {α : Type} [CommRing α] (PI rotationY : α) : TweenVars α :=
  { y := rotationY + PI * 2
    duration := 20
    «repeat» := -1
    ease := "none" }

/-- GSAP's reading of `repeat`: the tween plays `repeat + 1` times, and a
negative `repeat` means it plays without end (`none`). -/
def TweenVars.iterations {α : Type} (v : TweenVars α) : Option Nat :=
  if v.«repeat» < 0 then none else some (v.«repeat».toNat + 1)

/-- Whether the tween has finished `t` seconds after its start. -/
def TweenVars.finishedAt {α : Type} (v : TweenVars α) (t : ℚ) : Bool :=
  match v.iterations with
  | none => false
  | some k => decide ((k : ℚ) * v.duration ≤ t)

/-- A call the script makes on the GSAP library. -/
inductive GsapCall (α : Type) where
  | to (vars : TweenVars α)
  | kill

/-- Every GSAP call of the script, in order: the single `gsap.to` at the end of
the load callback; its return value is dropped. -/
def gsapCalls {α : Type} [CommRing α] (PI rotationY : α) : List (GsapCall α) :=
  [GsapCall.to (rotationTween PI rotationY)]

/-! ## Frame loop (viewer.js, lines 134-140) -/

/-- Counters observed on the frame loop: calls of `renderer.render`, calls of
`controls.update`, and callbacks handed to `requestAnimationFrame` that have
not run yet. -/
structure LoopState where
  renders : Nat
  controlUpdates : Nat
  pendingCallbacks : Nat
  deriving DecidableEq

/-- The state before the script calls `animate()`. -/
def LoopState.initial : LoopState := ⟨0, 0, 0⟩

/-- The body of `animate`: `requestAnimationFrame(animate); controls.update();
renderer.render(scene, camera);`. -/
def animate (s : LoopState) : LoopState :=
  let s1 := { s with pendingCallbacks := s.pendingCallbacks + 1 }
  let s2 := { s1 with controlUpdates := s1.controlUpdates + 1 }
  { s2 with renders := s2.renders + 1 }

/-- The host runs one scheduled callback: it takes a pending callback, if there
is one, and invokes `animate`. -/
def runFrame (s : LoopState) : Option LoopState :=
  if 0 < s.pendingCallbacks then
    some (animate { s with pendingCallbacks := s.pendingCallbacks - 1 })
  else none

/-- The state after `n` invocations of `animate`: the first is the direct call
`animate()` of line 140, every later one is a scheduled callback. -/
def afterInvocations : Nat → Option LoopState
  | 0 => some LoopState.initial
  | 1 => some (animate LoopState.initial)
  | n + 2 => (afterInvocations (n + 1)).bind runFrame

/-! ## Click listener (viewer.js, lines 142-145) -/

/-- A DOM element: an identity and its class list. -/
structure Element where
  id : Nat
  classList : List String
  deriving DecidableEq

/-- The document: its elements in document order. -/
abbrev Document := List Element

/-- `document.querySelector('.' + cls)`: the first element carrying the class,
or `null`. -/
def querySelector (doc : Document) (cls : String) : Option Element :=
  doc.find? (fun e => e.classList.contains cls)

/-- What the click-listener code changes on the page. -/
structure PageState where
  clickListeners : List Nat
  scrolledIntoView : Option Nat
  deriving DecidableEq

/-- The page before the listener is registered. -/
def PageState.initial : PageState := ⟨[], none⟩

/-- The uncaught `TypeError` of a method call on `null`. -/
inductive JsError where
  | typeError
  deriving DecidableEq

/-- The arrow function passed as listener (line 144):
`document.querySelector('.viewer-section').scrollIntoView({ behavior: 'smooth' })`.
It reads the document when the click happens. -/
def onCustomizeClick (doc : Document) (s : PageState) : Except JsError PageState :=
  match querySelector doc "viewer-section" with
  | none => .error .typeError
  | some section_ => .ok { s with scrolledIntoView := some section_.id }

/-- The registration statement (line 143):
`document.querySelector('.customize').addEventListener('click', listener)`.
The listener is stored, not run. -/
def registerClickListener (doc : Document) (s : PageState) : Except JsError PageState :=
  match querySelector doc "customize" with
  | none => .error .typeError
  | some button => .ok { s with clickListeners := button.id :: s.clickListeners }

/-- A page with the `.customize` button and no `.viewer-section`. -/
def pageWithoutSection : Document :=
  [⟨1, ["btn", "customize"]⟩, ⟨2, ["hero"]⟩]

/-- A page with both elements. -/
def fullPage : Document :=
  [⟨1, ["btn", "customize"]⟩, ⟨2, ["viewer-section"]⟩]

/-! ## Theorems: normalisation -/

theorem Box3.isEmpty_eq_false_iff (b : Box3) :
    b.isEmpty = false ↔ b.min.x ≤ b.max.x ∧ b.min.y ≤ b.max.y ∧ b.min.z ≤ b.max.z := by
  simp [Box3.isEmpty, and_assoc]

theorem mathMax3_mul_left (k a b c : ℚ) (hk : 0 ≤ k) :
    mathMax3 (k * a) (k * b) (k * c) = k * mathMax3 a b c := by
  simp only [mathMax3, mul_max_of_nonneg _ _ hk]

/-- The world box of a non-empty model whose scale is non-negative on every
axis: no end is swapped. -/
theorem setFromObject_of_nonneg (m : Model) (hne : m.localExtent.isEmpty = false)
    (hx : 0 ≤ m.scale.x) (hy : 0 ≤ m.scale.y) (hz : 0 ≤ m.scale.z) :
    setFromObject m =
      ⟨⟨m.position.x + m.scale.x * m.localExtent.min.x,
        m.position.y + m.scale.y * m.localExtent.min.y,
        m.position.z + m.scale.z * m.localExtent.min.z⟩,
       ⟨m.position.x + m.scale.x * m.localExtent.max.x,
        m.position.y + m.scale.y * m.localExtent.max.y,
        m.position.z + m.scale.z * m.localExtent.max.z⟩⟩ := by
  obtain ⟨h1, h2, h3⟩ := (Box3.isEmpty_eq_false_iff _).1 hne
  have ex := mul_le_mul_of_nonneg_left h1 hx
  have ey := mul_le_mul_of_nonneg_left h2 hy
  have ez := mul_le_mul_of_nonneg_left h3 hz
  simp only [setFromObject, hne, Bool.false_eq_true, if_false]
  congr 2
  · exact min_eq_left (by linarith)
  · exact min_eq_left (by linarith)
  · exact min_eq_left (by linarith)
  · exact max_eq_right (by linarith)
  · exact max_eq_right (by linarith)
  · exact max_eq_right (by linarith)

/-- The size of the world box of a non-empty model with non-negative scale is
the scaled size of its content. -/
theorem getSize_setFromObject_of_nonneg (m : Model) (hne : m.localExtent.isEmpty = false)
    (hx : 0 ≤ m.scale.x) (hy : 0 ≤ m.scale.y) (hz : 0 ≤ m.scale.z) :
    (setFromObject m).getSize =
      ⟨m.scale.x * (m.localExtent.max.x - m.localExtent.min.x),
       m.scale.y * (m.localExtent.max.y - m.localExtent.min.y),
       m.scale.z * (m.localExtent.max.z - m.localExtent.min.z)⟩ := by
  obtain ⟨h1, h2, h3⟩ := (Box3.isEmpty_eq_false_iff _).1 hne
  have ex := mul_le_mul_of_nonneg_left h1 hx
  have ey := mul_le_mul_of_nonneg_left h2 hy
  have ez := mul_le_mul_of_nonneg_left h3 hz
  rw [setFromObject_of_nonneg m hne hx hy hz]
  have hb : Box3.isEmpty
      ⟨⟨m.position.x + m.scale.x * m.localExtent.min.x,
        m.position.y + m.scale.y * m.localExtent.min.y,
        m.position.z + m.scale.z * m.localExtent.min.z⟩,
       ⟨m.position.x + m.scale.x * m.localExtent.max.x,
        m.position.y + m.scale.y * m.localExtent.max.y,
        m.position.z + m.scale.z * m.localExtent.max.z⟩⟩ = false := by
    rw [Box3.isEmpty_eq_false_iff]
    exact ⟨by simpa using ex, by simpa using ey, by simpa using ez⟩
  simp only [Box3.getSize, hb, Bool.false_eq_true, if_false]
  congr 1 <;> ring

/-- Where the centre ends up: for a model with root scale `(1, 1, 1)` and a
positive longest side `M`, the centre of the bounding box recomputed after the
normalisation step is `(k - 1) * c` on every axis, where `k = 1.5 / M` is the
scale factor and `c` the centre of the content in the root's frame. -/
theorem getCenter_normalize (m : Model) (hs : m.scale = ⟨1, 1, 1⟩)
    (hpos : 0 < (setFromObject m).longestSide) :
    (setFromObject (normalize m)).getCenter =
      ⟨(3 / 2 / (setFromObject m).longestSide - 1) *
          ((m.localExtent.min.x + m.localExtent.max.x) * (1 / 2)),
       (3 / 2 / (setFromObject m).longestSide - 1) *
          ((m.localExtent.min.y + m.localExtent.max.y) * (1 / 2)),
       (3 / 2 / (setFromObject m).longestSide - 1) *
          ((m.localExtent.min.z + m.localExtent.max.z) * (1 / 2))⟩ := by
  have hne : m.localExtent.isEmpty = false := by
    cases he : m.localExtent.isEmpty with
    | false => rfl
    | true =>
      exfalso
      simp [Box3.longestSide, setFromObject, Box3.getSize, he, mathMax3] at hpos
  obtain ⟨h1, h2, h3⟩ := (Box3.isEmpty_eq_false_iff _).1 hne
  have hsx : m.scale.x = 1 := by rw [hs]
  have hsy : m.scale.y = 1 := by rw [hs]
  have hsz : m.scale.z = 1 := by rw [hs]
  have hbox := setFromObject_of_nonneg m hne (by rw [hsx]; norm_num)
    (by rw [hsy]; norm_num) (by rw [hsz]; norm_num)
  rw [hsx, hsy, hsz] at hbox
  simp only [one_mul] at hbox
  have hbe : (setFromObject m).isEmpty = false := by
    rw [hbox, Box3.isEmpty_eq_false_iff]
    exact ⟨by simpa using h1, by simpa using h2, by simpa using h3⟩
  set k := 3 / 2 / (setFromObject m).longestSide with hk
  have hk0 : (0 : ℚ) ≤ k := by positivity
  have hn : normalize m =
      { position := m.position.sub (setFromObject m).getCenter,
        scale := ⟨k, k, k⟩, localExtent := m.localExtent } := by
    simp only [normalize, Vector3.setScalar, hk, Box3.longestSide]
  have hbox2 := setFromObject_of_nonneg (normalize m)
    (by rw [hn]; exact hne) (by rw [hn]; exact hk0) (by rw [hn]; exact hk0)
    (by rw [hn]; exact hk0)
  have ex := mul_le_mul_of_nonneg_left h1 hk0
  have ey := mul_le_mul_of_nonneg_left h2 hk0
  have ez := mul_le_mul_of_nonneg_left h3 hk0
  have hbe2 : (setFromObject (normalize m)).isEmpty = false := by
    rw [hbox2, hn, Box3.isEmpty_eq_false_iff]
    exact ⟨by simpa using ex, by simpa using ey, by simpa using ez⟩
  have hc : (setFromObject m).getCenter =
      ⟨(m.position.x + m.localExtent.min.x + (m.position.x + m.localExtent.max.x)) * (1 / 2),
       (m.position.y + m.localExtent.min.y + (m.position.y + m.localExtent.max.y)) * (1 / 2),
       (m.position.z + m.localExtent.min.z + (m.position.z + m.localExtent.max.z)) * (1 / 2)⟩ := by
    rw [Box3.getCenter, hbe, hbox]
    simp
  rw [Box3.getCenter, hbe2, hbox2, hn, hc]
  simp only [Bool.false_eq_true, if_false, Vector3.sub]
  congr 1 <;> ring

/-- C1 (evaluation at the failing input): for the model with identity root
transform and content `[1,3] x [0,1] x [0,1]`, the normalisation step sets the
position to `(-2, -1/2, -1/2)` and the scale to `3/4`, which leaves the centre
of the recomputed bounding box at `(-1/2, -1/8, -1/8)`, not at the origin. -/
theorem normalize_center_off_origin :
    normalize offCentreModel =
      { position := ⟨-2, -1 / 2, -1 / 2⟩, scale := ⟨3 / 4, 3 / 4, 3 / 4⟩,
        localExtent := ⟨⟨1, 0, 0⟩, ⟨3, 1, 1⟩⟩ } ∧
    (setFromObject (normalize offCentreModel)).getCenter = ⟨-1 / 2, -1 / 8, -1 / 8⟩ ∧
    (setFromObject (normalize offCentreModel)).getCenter ≠ ⟨0, 0, 0⟩ := by
  have hn : normalize offCentreModel =
      { position := ⟨-2, -1 / 2, -1 / 2⟩, scale := ⟨3 / 4, 3 / 4, 3 / 4⟩,
        localExtent := ⟨⟨1, 0, 0⟩, ⟨3, 1, 1⟩⟩ } := by
    simp [normalize, setFromObject, offCentreModel, Box3.getCenter, Box3.getSize,
      Box3.isEmpty, mathMax3, Vector3.sub, Vector3.setScalar]
    norm_num
  have h : (setFromObject (normalize offCentreModel)).getCenter = ⟨-1 / 2, -1 / 8, -1 / 8⟩ := by
    rw [hn]
    simp [setFromObject, Box3.getCenter, Box3.isEmpty]
    norm_num
  refine ⟨hn, h, ?_⟩
  rw [h]
  intro hc
  have := congrArg Vector3.x hc
  norm_num at this

/-- C2 (counterexample): a loaded scene without geometry has an empty bounding
box before and after the normalisation step, so its longest side is `0` after
normalisation, not `1.5`. -/
theorem normalize_longestSide_empty :
    (setFromObject emptyModel).longestSide = 0 ∧
    (setFromObject (normalize emptyModel)).longestSide = 0 ∧
    (setFromObject (normalize emptyModel)).longestSide ≠ 3 / 2 := by
  have h0 : (setFromObject emptyModel).longestSide = 0 := by
    simp [Box3.longestSide, setFromObject, emptyModel, Box3.getSize, Box3.isEmpty, mathMax3]
  have h1 : (setFromObject (normalize emptyModel)).longestSide = 0 := by
    simp [Box3.longestSide, normalize, setFromObject, emptyModel, Box3.getSize,
      Box3.isEmpty, mathMax3]
  refine ⟨h0, h1, ?_⟩
  rw [h1]
  norm_num

/-- C2 (amended): for a loaded model (the root of a loaded scene has scale
`(1, 1, 1)`) whose bounding box before normalisation has a positive longest
side, the longest side of the bounding box recomputed after the normalisation
step is exactly `1.5`, whatever the native size and position. -/
theorem normalize_longestSide (m : Model) (hs : m.scale = ⟨1, 1, 1⟩)
    (hpos : 0 < (setFromObject m).longestSide) :
    (setFromObject (normalize m)).longestSide = 3 / 2 := by
  have hne : m.localExtent.isEmpty = false := by
    cases he : m.localExtent.isEmpty with
    | false => rfl
    | true =>
      exfalso
      simp [Box3.longestSide, setFromObject, Box3.getSize, he, mathMax3] at hpos
  have hsx : m.scale.x = 1 := by rw [hs]
  have hsy : m.scale.y = 1 := by rw [hs]
  have hsz : m.scale.z = 1 := by rw [hs]
  have hsize := getSize_setFromObject_of_nonneg m hne (by rw [hsx]; norm_num)
    (by rw [hsy]; norm_num) (by rw [hsz]; norm_num)
  rw [hsx, hsy, hsz] at hsize
  simp only [one_mul] at hsize
  simp only [Box3.longestSide, hsize] at hpos
  set M := mathMax3 (m.localExtent.max.x - m.localExtent.min.x)
    (m.localExtent.max.y - m.localExtent.min.y)
    (m.localExtent.max.z - m.localExtent.min.z) with hM
  have hk : (0 : ℚ) ≤ 3 / 2 / M := by positivity
  have hn : normalize m =
      { position := m.position.sub (setFromObject m).getCenter,
        scale := ⟨3 / 2 / M, 3 / 2 / M, 3 / 2 / M⟩,
        localExtent := m.localExtent } := by
    simp only [normalize, hsize, Vector3.setScalar, ← hM]
  have hsize2 := getSize_setFromObject_of_nonneg (normalize m)
    (by rw [hn]; exact hne) (by rw [hn]; exact hk) (by rw [hn]; exact hk) (by rw [hn]; exact hk)
  rw [Box3.longestSide, hsize2, hn]
  simp only
  rw [mathMax3_mul_left _ _ _ _ hk, ← hM]
  field_simp
  ring

/-- C2 (amended) instantiated: content `[1,3] x [0,1] x [0,1]` under the identity root
transform is scaled so that its longest side is `1.5`. -/
theorem normalize_longestSide_witness :
    (setFromObject (normalize offCentreModel)).longestSide = 3 / 2 :=
  normalize_longestSide offCentreModel rfl
    (by
      simp [Box3.longestSide, setFromObject, offCentreModel, Box3.getSize, Box3.isEmpty,
        mathMax3]
      norm_num)

/-! ## Theorems: material enhancement -/

theorem orZero_eq_getD (v : Option ℚ) : orZero v = v.getD 0 := by
  cases v with
  | none => rfl
  | some q =>
    by_cases h : q = 0
    · simp [orZero, h]
    · simp [orZero, h]

theorem isPBR_clampPBR (m : Material) : isPBR (clampPBR m) = isPBR m := rfl

theorem isPBR_replaceMaterial (m : Material) : isPBR (replaceMaterial m) = true := rfl

/-- On a physically based material only the first branch runs. -/
theorem enhanceMaterial_of_isPBR (m : Material) (h : isPBR m = true) :
    enhanceMaterial m = clampPBR m := by
  simp [enhanceMaterial, h, isPBR_clampPBR]

/-- On any other material only the second branch runs. -/
theorem enhanceMaterial_of_not_isPBR (m : Material) (h : isPBR m = false) :
    enhanceMaterial m = replaceMaterial m := by
  simp [enhanceMaterial, h]

/-- The traversal acts node by node. -/
theorem nodes_traverse (callback : Child → Child) (o : Object3D) :
    (o.traverse callback).nodes = o.nodes.map callback := by
  induction o using Object3D.rec (motive_2 := fun cs =>
      nodesOfChildren (traverseChildren callback cs) = (nodesOfChildren cs).map callback) with
  | node self children ih =>
    simp [Object3D.traverse, Object3D.nodes, ih]
  | nil => simp [traverseChildren, nodesOfChildren]
  | cons c cs ihc ihcs =>
    simp [traverseChildren, nodesOfChildren, ihc, ihcs]

/-- A traversal with a composed callback is two traversals. -/
theorem traverse_traverse (f g : Child → Child) (o : Object3D) :
    (o.traverse f).traverse g = o.traverse (g ∘ f) := by
  induction o using Object3D.rec (motive_2 := fun cs =>
      traverseChildren g (traverseChildren f cs) = traverseChildren (g ∘ f) cs) with
  | node self children ih =>
    simp [Object3D.traverse, ih]
  | nil => simp [traverseChildren]
  | cons c cs ihc ihcs =>
    simp [traverseChildren, ihc, ihcs]

theorem clampPBR_clampPBR (m : Material) : clampPBR (clampPBR m) = clampPBR m := by
  simp [clampPBR, orZero_eq_getD]

theorem clampPBR_replaceMaterial (m : Material) :
    clampPBR (replaceMaterial m) = replaceMaterial m := by
  simp only [clampPBR, replaceMaterial, newMeshPhysicalMaterial, orZero_eq_getD,
    Option.getD_some]
  norm_num

theorem enhanceMaterial_idem (m : Material) :
    enhanceMaterial (enhanceMaterial m) = enhanceMaterial m := by
  cases h : isPBR m with
  | true =>
    rw [enhanceMaterial_of_isPBR m h,
      enhanceMaterial_of_isPBR _ ((isPBR_clampPBR m).trans h), clampPBR_clampPBR]
  | false =>
    rw [enhanceMaterial_of_not_isPBR m h,
      enhanceMaterial_of_isPBR _ (isPBR_replaceMaterial m), clampPBR_replaceMaterial]

theorem enhanceChild_idem (c : Child) : enhanceChild (enhanceChild c) = enhanceChild c := by
  obtain ⟨name, isMesh, material⟩ := c
  cases isMesh <;> cases material <;> simp [enhanceChild, enhanceMaterial_idem]

/-- Metalness of a physically based material: the enhancement sets it to
`max(m, 0.8)`, where `m` is the previous metalness and a missing value counts
as `0`; hence the new metalness is at least `0.8`, a previous value of `0.8` or
more is kept, and a previous `0.5` becomes exactly `0.8`. -/
theorem enhanceMaterial_metalness (m : Material) (h : isPBR m = true) :
    (enhanceMaterial m).metalness = some (Max.max (m.metalness.getD 0) (4 / 5)) ∧
    (∃ v, (enhanceMaterial m).metalness = some v ∧ 4 / 5 ≤ v) ∧
    (∀ v : ℚ, m.metalness = some v → 4 / 5 ≤ v →
      (enhanceMaterial m).metalness = m.metalness) ∧
    (m.metalness = some (1 / 2) → (enhanceMaterial m).metalness = some (4 / 5)) := by
  have hm : (enhanceMaterial m).metalness = some (Max.max (m.metalness.getD 0) (4 / 5)) := by
    rw [enhanceMaterial_of_isPBR m h]
    simp [clampPBR, orZero_eq_getD]
  refine ⟨hm, ⟨_, hm, le_max_right _ _⟩, ?_, ?_⟩
  · intro v hv hle
    rw [hm, hv, Option.getD_some, max_eq_left hle]
  · intro hv
    rw [hm, hv, Option.getD_some]
    norm_num

/-- Roughness and envMapIntensity of a physically based material: the
enhancement sets roughness to
`min(r, 0.3)` and envMapIntensity to `max(e, 1.2)`, where `r` and `e` are the
previous values and a missing value counts as `0`; hence roughness ends at most
`0.3`, envMapIntensity at least `1.2`, a roughness already at or below `0.3`
and an envMapIntensity already at or above `1.2` are kept. -/
theorem enhanceMaterial_roughness_envMapIntensity (m : Material) (h : isPBR m = true) :
    (enhanceMaterial m).roughness = some (Min.min (m.roughness.getD 0) (3 / 10)) ∧
    (enhanceMaterial m).envMapIntensity =
      some (Max.max (m.envMapIntensity.getD 0) (6 / 5)) ∧
    (∃ r, (enhanceMaterial m).roughness = some r ∧ r ≤ 3 / 10) ∧
    (∃ e, (enhanceMaterial m).envMapIntensity = some e ∧ 6 / 5 ≤ e) ∧
    (∀ r : ℚ, m.roughness = some r → r ≤ 3 / 10 →
      (enhanceMaterial m).roughness = m.roughness) ∧
    (∀ e : ℚ, m.envMapIntensity = some e → 6 / 5 ≤ e →
      (enhanceMaterial m).envMapIntensity = m.envMapIntensity) := by
  have hr : (enhanceMaterial m).roughness = some (Min.min (m.roughness.getD 0) (3 / 10)) := by
    rw [enhanceMaterial_of_isPBR m h]
    simp [clampPBR, orZero_eq_getD]
  have he : (enhanceMaterial m).envMapIntensity =
      some (Max.max (m.envMapIntensity.getD 0) (6 / 5)) := by
    rw [enhanceMaterial_of_isPBR m h]
    simp [clampPBR, orZero_eq_getD]
  refine ⟨hr, he, ⟨_, hr, min_le_right _ _⟩, ⟨_, he, le_max_right _ _⟩, ?_, ?_⟩
  · intro r hv hle
    rw [hr, hv, Option.getD_some, min_eq_left hle]
  · intro e hv hle
    rw [he, hv, Option.getD_some, max_eq_left hle]

/-- A material that is not physically based is replaced by a physical
material with metalness `0.9`, roughness `0.2`, clearcoat `0.3`,
clearcoatRoughness `0.1`, envMapIntensity `1.5`, whose colour is the original
colour when there is one and the default gold `0xD4AF37` otherwise; every other
property has the constructor default, so two such materials with the same
colour are replaced by the same material. -/
theorem enhanceMaterial_replaces_non_pbr (m : Material) (h : isPBR m = false) :
    enhanceMaterial m =
      { isMeshPhysicalMaterial := true, isMeshStandardMaterial := true,
        color := some (m.color.getD 0xD4AF37),
        metalness := some (9 / 10), roughness := some (1 / 5),
        envMapIntensity := some (3 / 2), clearcoat := some (3 / 10),
        clearcoatRoughness := some (1 / 10), map := none, opacity := 1 } ∧
    (m.color = none → (enhanceMaterial m).color = some 0xD4AF37) ∧
    (∀ c, m.color = some c → (enhanceMaterial m).color = some c) ∧
    (∀ m2 : Material, isPBR m2 = false → m2.color = m.color →
      enhanceMaterial m2 = enhanceMaterial m) := by
  have hm : enhanceMaterial m =
      { isMeshPhysicalMaterial := true, isMeshStandardMaterial := true,
        color := some (m.color.getD 0xD4AF37),
        metalness := some (9 / 10), roughness := some (1 / 5),
        envMapIntensity := some (3 / 2), clearcoat := some (3 / 10),
        clearcoatRoughness := some (1 / 10), map := none, opacity := 1 } := by
    rw [enhanceMaterial_of_not_isPBR m h]
    cases hc : m.color <;>
      simp [replaceMaterial, newMeshPhysicalMaterial, hc, defaultGold]
  refine ⟨hm, ?_, ?_, ?_⟩
  · intro hc
    rw [hm, hc]
    rfl
  · intro c hc
    rw [hm, hc]
    rfl
  · intro m2 h2 hc
    rw [enhanceMaterial_of_not_isPBR m h, enhanceMaterial_of_not_isPBR m2 h2]
    simp [replaceMaterial, hc]

/-- Whatever branch ran, the enhanced material is physically based and within
the three bounds. -/
theorem enhanceMaterial_bounds (m : Material) :
    isPBR (enhanceMaterial m) = true ∧
    (∃ v, (enhanceMaterial m).metalness = some v ∧ 4 / 5 ≤ v) ∧
    (∃ r, (enhanceMaterial m).roughness = some r ∧ r ≤ 3 / 10) ∧
    (∃ e, (enhanceMaterial m).envMapIntensity = some e ∧ 6 / 5 ≤ e) := by
  cases h : isPBR m with
  | true =>
    rw [enhanceMaterial_of_isPBR m h]
    refine ⟨(isPBR_clampPBR m).trans h, ⟨_, rfl, le_max_right _ _⟩,
      ⟨_, rfl, min_le_right _ _⟩, ⟨_, rfl, le_max_right _ _⟩⟩
  | false =>
    rw [enhanceMaterial_of_not_isPBR m h]
    refine ⟨rfl, ⟨_, rfl, ?_⟩, ⟨_, rfl, ?_⟩, ⟨_, rfl, ?_⟩⟩ <;> norm_num

/-- What the traversal does to a mesh with a material: the node at the same
position of the traversal order is the same node with the enhanced material. -/
theorem mesh_after_traversal (model : Object3D) (i : Nat) (c : Child) (m : Material)
    (hc : model.nodes[i]? = some c) (hmesh : c.isMesh = true)
    (hmat : c.material = some m) :
    (enhanceMaterials model).nodes[i]? =
      some { c with material := some (enhanceMaterial m) } := by
  have hchild : enhanceChild c = { c with material := some (enhanceMaterial m) } := by
    obtain ⟨name, isMesh, material⟩ := c
    simp only at hmesh hmat
    subst hmesh hmat
    rfl
  simp [enhanceMaterials, nodes_traverse, List.getElem?_map, hc, hchild]

/-- C3: take any mesh of the model, at position `i` of the traversal order,
whose material `m` is physically based.  After the material-enhancement
traversal the node at position `i` is still that mesh, and its material has
metalness `max(m.metalness, 0.8)`, a missing value counting as `0`; hence the
new metalness is at least `0.8`, a previous value of `0.8` or more is kept, and
a previous `0.5` becomes exactly `0.8`. -/
theorem enhance_metalness (model : Object3D) (i : Nat) (c : Child) (m : Material)
    (hc : model.nodes[i]? = some c) (hmesh : c.isMesh = true)
    (hmat : c.material = some m) (h : isPBR m = true) :
    ∃ c2 m2, (enhanceMaterials model).nodes[i]? = some c2 ∧
      c2.name = c.name ∧ c2.isMesh = true ∧ c2.material = some m2 ∧
      m2.metalness = some (Max.max (m.metalness.getD 0) (4 / 5)) ∧
      (∃ v, m2.metalness = some v ∧ 4 / 5 ≤ v) ∧
      (∀ v : ℚ, m.metalness = some v → 4 / 5 ≤ v → m2.metalness = m.metalness) ∧
      (m.metalness = some (1 / 2) → m2.metalness = some (4 / 5)) := by
  obtain ⟨h1, h2, h3, h4⟩ := enhanceMaterial_metalness m h
  exact ⟨_, enhanceMaterial m, mesh_after_traversal model i c m hc hmesh hmat,
    rfl, hmesh, rfl, h1, h2, h3, h4⟩

/-- C3 instantiated on the sample scene: node 1 is the mesh "band" with a
standard material of metalness `0.5`; after the traversal its metalness is
exactly `0.8`. -/
theorem enhance_metalness_witness :
    sampleScene.nodes[1]? = some ⟨"band", true, some standardHalf⟩ ∧
    isPBR standardHalf = true ∧
    ∃ c2 m2, (enhanceMaterials sampleScene).nodes[1]? = some c2 ∧
      c2.name = "band" ∧ c2.isMesh = true ∧ c2.material = some m2 ∧
      m2.metalness = some (4 / 5) := by
  obtain ⟨c2, m2, h1, h2, h3, h4, _, _, _, h8⟩ :=
    enhance_metalness sampleScene 1 ⟨"band", true, some standardHalf⟩ standardHalf
      rfl rfl rfl rfl
  exact ⟨rfl, rfl, c2, m2, h1, h2, h3, h4, h8 rfl⟩

/-- C4: take any mesh of the model, at position `i` of the traversal order,
whose material `m` is physically based.  After the material-enhancement
traversal the node at position `i` is still that mesh, and its material has
roughness `min(m.roughness, 0.3)` and envMapIntensity
`max(m.envMapIntensity, 1.2)`, a missing value counting as `0`; hence roughness
ends at most `0.3`, envMapIntensity at least `1.2`, and a roughness already at
or below `0.3` and an envMapIntensity already at or above `1.2` are kept. -/
theorem enhance_roughness_envMapIntensity (model : Object3D) (i : Nat) (c : Child)
    (m : Material) (hc : model.nodes[i]? = some c) (hmesh : c.isMesh = true)
    (hmat : c.material = some m) (h : isPBR m = true) :
    ∃ c2 m2, (enhanceMaterials model).nodes[i]? = some c2 ∧
      c2.name = c.name ∧ c2.isMesh = true ∧ c2.material = some m2 ∧
      m2.roughness = some (Min.min (m.roughness.getD 0) (3 / 10)) ∧
      m2.envMapIntensity = some (Max.max (m.envMapIntensity.getD 0) (6 / 5)) ∧
      (∃ r, m2.roughness = some r ∧ r ≤ 3 / 10) ∧
      (∃ e, m2.envMapIntensity = some e ∧ 6 / 5 ≤ e) ∧
      (∀ r : ℚ, m.roughness = some r → r ≤ 3 / 10 → m2.roughness = m.roughness) ∧
      (∀ e : ℚ, m.envMapIntensity = some e → 6 / 5 ≤ e →
        m2.envMapIntensity = m.envMapIntensity) := by
  obtain ⟨h1, h2, h3, h4, h5, h6⟩ := enhanceMaterial_roughness_envMapIntensity m h
  exact ⟨_, enhanceMaterial m, mesh_after_traversal model i c m hc hmesh hmat,
    rfl, hmesh, rfl, h1, h2, h3, h4, h5, h6⟩

/-- C4 instantiated on the sample scene: the mesh "band" has roughness `0.5`
and envMapIntensity `1`; after the traversal they are `0.3` and `1.2`. -/
theorem enhance_roughness_envMapIntensity_witness :
    sampleScene.nodes[1]? = some ⟨"band", true, some standardHalf⟩ ∧
    isPBR standardHalf = true ∧
    ∃ c2 m2, (enhanceMaterials sampleScene).nodes[1]? = some c2 ∧
      c2.name = "band" ∧ c2.isMesh = true ∧ c2.material = some m2 ∧
      m2.roughness = some (3 / 10) ∧ m2.envMapIntensity = some (6 / 5) := by
  obtain ⟨c2, m2, h1, h2, h3, h4, h5, h6, _⟩ :=
    enhance_roughness_envMapIntensity sampleScene 1 ⟨"band", true, some standardHalf⟩
      standardHalf rfl rfl rfl rfl
  refine ⟨rfl, rfl, c2, m2, h1, h2, h3, h4, ?_, ?_⟩
  · rw [h5]
    simp only [standardHalf, Option.getD_some]
    norm_num
  · rw [h6]
    simp only [standardHalf, Option.getD_some]
    norm_num

/-- C5: take any mesh of the model, at position `i` of the traversal order,
whose material `m` is not physically based.  After the material-enhancement
traversal the node at position `i` is still that mesh, and its material is a
physical material with exactly metalness `0.9`, roughness `0.2`, clearcoat
`0.3`, clearcoatRoughness `0.1`, envMapIntensity `1.5`, whose colour is the
colour of `m` when it has one and the default gold `0xD4AF37` when it has none;
every other property has the constructor default, so any other non-PBR mesh
with the same colour ends with the same material. -/
theorem enhance_replaces_non_pbr (model : Object3D) (i : Nat) (c : Child) (m : Material)
    (hc : model.nodes[i]? = some c) (hmesh : c.isMesh = true)
    (hmat : c.material = some m) (h : isPBR m = false) :
    ∃ c2 m2, (enhanceMaterials model).nodes[i]? = some c2 ∧
      c2.name = c.name ∧ c2.isMesh = true ∧ c2.material = some m2 ∧
      m2 =
        { isMeshPhysicalMaterial := true, isMeshStandardMaterial := true,
          color := some (m.color.getD 0xD4AF37),
          metalness := some (9 / 10), roughness := some (1 / 5),
          envMapIntensity := some (3 / 2), clearcoat := some (3 / 10),
          clearcoatRoughness := some (1 / 10), map := none, opacity := 1 } ∧
      (m.color = none → m2.color = some 0xD4AF37) ∧
      (∀ col, m.color = some col → m2.color = some col) ∧
      (∀ (other : Object3D) (j : Nat) (d : Child) (n : Material),
        other.nodes[j]? = some d → d.isMesh = true → d.material = some n →
        isPBR n = false → n.color = m.color →
        (enhanceMaterials other).nodes[j]? = some { d with material := some m2 }) := by
  obtain ⟨h1, h2, h3, h4⟩ := enhanceMaterial_replaces_non_pbr m h
  refine ⟨_, enhanceMaterial m, mesh_after_traversal model i c m hc hmesh hmat,
    rfl, hmesh, rfl, h1, h2, h3, ?_⟩
  intro other j d n hd hdmesh hdmat hn hcol
  rw [mesh_after_traversal other j d n hd hdmesh hdmat, h4 n hn hcol]

/-- C5 instantiated on the sample scene: node 2 is the mesh "stone" with a
basic material without colour, with a texture and opacity `0.5`; after the
traversal its material is the gold physical material and keeps neither. -/
theorem enhance_replaces_non_pbr_witness :
    sampleScene.nodes[2]? = some ⟨"stone", true, some basicNoColour⟩ ∧
    isPBR basicNoColour = false ∧
    ∃ c2 m2, (enhanceMaterials sampleScene).nodes[2]? = some c2 ∧
      c2.name = "stone" ∧ c2.isMesh = true ∧ c2.material = some m2 ∧
      m2 =
        { isMeshPhysicalMaterial := true, isMeshStandardMaterial := true,
          color := some 0xD4AF37,
          metalness := some (9 / 10), roughness := some (1 / 5),
          envMapIntensity := some (3 / 2), clearcoat := some (3 / 10),
          clearcoatRoughness := some (1 / 10), map := none, opacity := 1 } := by
  obtain ⟨c2, m2, h1, h2, h3, h4, h5, _⟩ :=
    enhance_replaces_non_pbr sampleScene 2 ⟨"stone", true, some basicNoColour⟩
      basicNoColour rfl rfl rfl rfl
  exact ⟨rfl, rfl, c2, m2, h1, h2, h3, h4, h5⟩

/-- C9: take any node of the model, at position `i` of the traversal order.
After the material-enhancement traversal the node at position `i` is the
callback's result on it, with the same name and mesh flag.  If it is a mesh with
a material `m`, its material is the clamped `m` when `m` is physically based
and the replacement otherwise (one branch only), and in both cases it is
physically based with metalness at least `0.8`, roughness at most `0.3` and
envMapIntensity at least `1.2`.  A node that is not a mesh, or has no material,
is unchanged. -/
theorem enhanceMaterials_invariant (model : Object3D) (i : Nat) (c : Child)
    (hc : model.nodes[i]? = some c) :
    ∃ c2, (enhanceMaterials model).nodes[i]? = some c2 ∧
      c2.name = c.name ∧ c2.isMesh = c.isMesh ∧
      (∀ m, c.isMesh = true → c.material = some m →
        ∃ m2, c2.material = some m2 ∧
          m2 = (if isPBR m then clampPBR m else replaceMaterial m) ∧
          isPBR m2 = true ∧
          (∃ v, m2.metalness = some v ∧ 4 / 5 ≤ v) ∧
          (∃ r, m2.roughness = some r ∧ r ≤ 3 / 10) ∧
          (∃ e, m2.envMapIntensity = some e ∧ 6 / 5 ≤ e)) ∧
      ((c.isMesh = false ∨ c.material = none) → c2 = c) := by
  refine ⟨enhanceChild c, ?_, ?_, ?_, ?_, ?_⟩
  · simp [enhanceMaterials, nodes_traverse, List.getElem?_map, hc]
  · obtain ⟨name, isMesh, material⟩ := c
    cases isMesh <;> cases material <;> rfl
  · obtain ⟨name, isMesh, material⟩ := c
    cases isMesh <;> cases material <;> rfl
  · intro m hmesh hmat
    refine ⟨enhanceMaterial m, ?_, ?_, enhanceMaterial_bounds m⟩
    · obtain ⟨name, isMesh, material⟩ := c
      simp only at hmesh hmat
      subst hmesh hmat
      rfl
    · cases h : isPBR m with
      | true => simp [enhanceMaterial_of_isPBR m h]
      | false => simp [enhanceMaterial_of_not_isPBR m h]
  · intro h
    obtain ⟨name, isMesh, material⟩ := c
    rcases h with h | h
    · simp only at h
      subst h
      rfl
    · simp only at h
      subst h
      cases isMesh <;> rfl

/-- C9 instantiated on the sample scene: node 2 is the mesh "stone" with a
basic material. -/
theorem enhanceMaterials_invariant_witness :
    sampleScene.nodes[2]? = some ⟨"stone", true, some basicNoColour⟩ ∧
    ∃ c2, (enhanceMaterials sampleScene).nodes[2]? = some c2 ∧
      c2.name = "stone" ∧ c2.isMesh = true ∧
      (∀ m, true = true → some basicNoColour = some m →
        ∃ m2, c2.material = some m2 ∧
          m2 = (if isPBR m then clampPBR m else replaceMaterial m) ∧
          isPBR m2 = true ∧
          (∃ v, m2.metalness = some v ∧ 4 / 5 ≤ v) ∧
          (∃ r, m2.roughness = some r ∧ r ≤ 3 / 10) ∧
          (∃ e, m2.envMapIntensity = some e ∧ 6 / 5 ≤ e)) ∧
      ((true = false ∨ some basicNoColour = none) →
        c2 = ⟨"stone", true, some basicNoColour⟩) :=
  ⟨rfl, enhanceMaterials_invariant sampleScene 2 ⟨"stone", true, some basicNoColour⟩ rfl⟩

/-- C10: the enhancement rule is idempotent, on a material, on a node, and on
a whole model: a second application changes nothing (all recorded parameters,
colour and material kind included). -/
theorem enhance_idempotent (m : Material) (c : Child) (model : Object3D) :
    enhanceMaterial (enhanceMaterial m) = enhanceMaterial m ∧
    enhanceChild (enhanceChild c) = enhanceChild c ∧
    enhanceMaterials (enhanceMaterials model) = enhanceMaterials model := by
  refine ⟨enhanceMaterial_idem m, enhanceChild_idem c, ?_⟩
  have hfun : enhanceChild ∘ enhanceChild = enhanceChild :=
    funext fun d => enhanceChild_idem d
  rw [enhanceMaterials, enhanceMaterials, traverse_traverse, hfun]

/-! ## Theorems: rotation tween -/

/-- C8: the tween handed to `gsap.to` targets `y` with the value
`model.rotation.y + 2 * PI`, so the difference from the rotation at the time of
the call is exactly `2 * PI`; its duration is `20`, its ease `"none"`, its
repeat `-1`.  With GSAP's reading of `repeat` it has no last iteration and is
finished at no time, and the script makes no other GSAP call (no `kill`). -/
theorem rotationTween_full_turn {α : Type} [CommRing α] (PI rotationY : α) :
    (rotationTween PI rotationY).y - rotationY = 2 * PI ∧
    (rotationTween PI rotationY).y = rotationY + 2 * PI ∧
    (rotationTween PI rotationY).duration = 20 ∧
    (rotationTween PI rotationY).ease = "none" ∧
    (rotationTween PI rotationY).«repeat» = -1 ∧
    (rotationTween PI rotationY).iterations = none ∧
    (∀ t : ℚ, (rotationTween PI rotationY).finishedAt t = false) ∧
    gsapCalls PI rotationY = [GsapCall.to (rotationTween PI rotationY)] := by
  refine ⟨?_, ?_, rfl, rfl, rfl, ?_, ?_, rfl⟩
  · simp only [rotationTween]; ring
  · simp only [rotationTween]; ring
  · simp [TweenVars.iterations, rotationTween]
  · intro t
    simp [TweenVars.finishedAt, TweenVars.iterations, rotationTween]

/-! ## Theorems: frame loop -/

/-- One scheduled callback: a render, a controller update, and the pending
callback replaced by a new one. -/
theorem runFrame_of_pending (s : LoopState) (h : 0 < s.pendingCallbacks) :
    runFrame s = some ⟨s.renders + 1, s.controlUpdates + 1, s.pendingCallbacks⟩ := by
  simp only [runFrame, h, if_true, animate]
  congr 2
  omega

theorem afterInvocations_succ (n : Nat) :
    afterInvocations (n + 1) = some ⟨n + 1, n + 1, 1⟩ := by
  induction n with
  | zero => rfl
  | succ k ih =>
    rw [afterInvocations, ih, Option.some_bind, runFrame_of_pending _ Nat.one_pos]

/-- C7: every invocation of `animate` performs exactly one `controls.update`,
one `renderer.render` and schedules exactly one further callback; a scheduled
callback can always run when one is pending; and after `n ≥ 1` invocations (the
initial call included) the render count and the update count are `n` and
exactly one callback is pending. -/
theorem animate_one_render_per_invocation (n : Nat) (hn : 0 < n) :
    (∀ s : LoopState, animate s =
      ⟨s.renders + 1, s.controlUpdates + 1, s.pendingCallbacks + 1⟩) ∧
    (∀ s : LoopState, 0 < s.pendingCallbacks →
      runFrame s = some ⟨s.renders + 1, s.controlUpdates + 1, s.pendingCallbacks⟩) ∧
    afterInvocations n = some ⟨n, n, 1⟩ := by
  refine ⟨fun s => rfl, runFrame_of_pending, ?_⟩
  obtain ⟨k, rfl⟩ : ∃ k, n = k + 1 := ⟨n - 1, by omega⟩
  exact afterInvocations_succ k

/-- C7 instantiated: after the initial call and two scheduled callbacks there
have been three renders and one callback is pending. -/
theorem animate_one_render_per_invocation_witness :
    0 < 3 ∧ afterInvocations 3 = some ⟨3, 3, 1⟩ :=
  ⟨by decide, (animate_one_render_per_invocation 3 (by decide)).2.2⟩

/-! ## Theorems: click listener -/

/-- C6 (counterexample): on a page with the `.customize` button and without a
`.viewer-section` element the registration statement succeeds; the missing
element only makes a later click fail. -/
theorem register_succeeds_without_section :
    querySelector pageWithoutSection "viewer-section" = none ∧
    registerClickListener pageWithoutSection PageState.initial = .ok ⟨[1], none⟩ ∧
    onCustomizeClick pageWithoutSection ⟨[1], none⟩ = .error .typeError :=
  ⟨by decide, rfl, rfl⟩

/-- C6 (amended): the registration statement fails exactly when the
`.customize` element is missing, whether or not a `.viewer-section` element
exists, and otherwise stores the listener on the button; the `.viewer-section`
element is looked up when the listener runs, and the listener fails exactly
when it is missing at that time. -/
theorem register_fails_iff_customize_missing (doc : Document) (s : PageState) :
    (registerClickListener doc s = .error .typeError ↔
      querySelector doc "customize" = none) ∧
    (∀ button, querySelector doc "customize" = some button →
      registerClickListener doc s =
        .ok { s with clickListeners := button.id :: s.clickListeners }) ∧
    (∀ clickDoc : Document, ∀ s2 : PageState,
      (onCustomizeClick clickDoc s2 = .error .typeError ↔
        querySelector clickDoc "viewer-section" = none) ∧
      (∀ target, querySelector clickDoc "viewer-section" = some target →
        onCustomizeClick clickDoc s2 = .ok { s2 with scrolledIntoView := some target.id })) := by
  refine ⟨?_, ?_, ?_⟩
  · cases h : querySelector doc "customize" <;> simp [registerClickListener, h]
  · intro button h
    simp [registerClickListener, h]
  · intro clickDoc s2
    refine ⟨?_, ?_⟩
    · cases h : querySelector clickDoc "viewer-section" <;> simp [onCustomizeClick, h]
    · intro target h
      simp [onCustomizeClick, h]

end Viewer
